import Mathlib

/-!
Verification of the trajectory-reconstruction and projectile-physics core of
the moukari repository. Each TypeScript function relevant to the frozen
claims is embedded shallowly: JavaScript numbers become real numbers (with
one auxiliary embedding, `JReal`, that also models the IEEE special values
NaN and the infinities where a claim is about NaN propagation), arrays
become lists, and the `while` loops of the source become well-founded
recursions (the loop variable `t` strictly increases by the fixed timestep,
bounding the iteration count).
-/

namespace Moukari

/-- A 2D pixel point `{x, y}` as used by the trackers. -/
structure Pt where
  x : ℝ
  y : ℝ

/-- A timed point `{x, y, t}` as used by the physics trajectory code and the
velocity fit. -/
@[ext]
structure Pt3 where
  x : ℝ
  y : ℝ
  t : ℝ

/-! ## Embedding of `src/lib/physics.ts` -/

/-- `PhysicsParams` from `physics.ts`. -/
structure PhysicsParams where
  vx0 : ℝ
  vy0 : ℝ
  releaseHeight : ℝ
  massKg : ℝ
  diameterMm : ℝ

/-- `PhysicsResult` from `physics.ts`. -/
structure PhysicsResult where
  distance : ℝ
  flightTime : ℝ
  maxHeight : ℝ
  landingVelocity : ℝ
  trajectory : List Pt3

/-- `const G = 9.81`. -/
def G : ℝ := 9.81

/-- `const RHO_AIR = 1.225`. -/
def RHO_AIR : ℝ := 1.225

/-- `const DRAG_COEFFICIENT = 0.62`. -/
def DRAG_COEFFICIENT : ℝ := 0.62

/-- `const TIME_STEP = 0.001`. -/
def TIME_STEP : ℝ := 0.001

/-- `calculateArea` from `physics.ts`: cross-sectional area of the ball,
`π·(diameterMm/2000)²`. -/
noncomputable def calculateArea (diameterMm : ℝ) : ℝ :=
  let radiusM := diameterMm / 2000
  Real.pi * radiusM * radiusM

/-- `calculateDrag` from `physics.ts`: drag force magnitude
`0.5 · ρ · v² · Cd · A`. The `massKg` argument is unused in the source as
well. -/
noncomputable def calculateDrag (v : ℝ) (_massKg : ℝ) (diameterMm : ℝ) : ℝ :=
  let area := calculateArea diameterMm
  0.5 * RHO_AIR * v * v * DRAG_COEFFICIENT * area

/-- The mutable state of the `while` loop of `calculateThrowWithDrag`. -/
@[ext]
structure SimState where
  x : ℝ
  y : ℝ
  vx : ℝ
  vy : ℝ
  t : ℝ
  maxHeight : ℝ
  trajectory : List Pt3

/-- One iteration of the `while` body of `calculateThrowWithDrag`:
semi-implicit Euler with quadratic drag, followed by the max-height update
and the (dead, because the array length stays 1) decimation push. In the
real-number embedding a division by a zero speed yields 0 (Lean convention);
the IEEE behaviour at zero speed is treated separately via `JReal`. -/
noncomputable def simStep (p : PhysicsParams) (s : SimState) : SimState :=
  let v := Real.sqrt (s.vx * s.vx + s.vy * s.vy)
  let dragForce := calculateDrag v p.massKg p.diameterMm
  let dragAccel := dragForce / p.massKg
  let ax := -(dragAccel * s.vx) / v
  let ay := -G - (dragAccel * s.vy) / v
  let vx' := s.vx + ax * TIME_STEP
  let vy' := s.vy + ay * TIME_STEP
  let x' := s.x + vx' * TIME_STEP
  let y' := s.y + vy' * TIME_STEP
  let t' := s.t + TIME_STEP
  let maxHeight' := if y' > s.maxHeight then y' else s.maxHeight
  let trajectory' :=
    if s.trajectory.length % 100 = 0 then s.trajectory ++ [⟨x', y', t'⟩]
    else s.trajectory
  ⟨x', y', vx', vy', t', maxHeight', trajectory'⟩

/-- The loop guard `y > 0 && t < 10` of `calculateThrowWithDrag`. -/
def simGuard (s : SimState) : Prop := s.y > 0 ∧ s.t < 10

noncomputable instance (s : SimState) : Decidable (simGuard s) := by
  unfold simGuard; infer_instance

/-- Iteration count bound for the loop: `t` rises by `0.001` each pass, so
`⌈(10 − t)·1000⌉` strictly decreases while the guard holds. -/
noncomputable def simMeasure (s : SimState) : ℕ :=
  (Int.ceil ((10 - s.t) * 1000)).toNat

theorem simStep_t (p : PhysicsParams) (s : SimState) :
    (simStep p s).t = s.t + TIME_STEP := rfl

theorem simMeasure_decreases (p : PhysicsParams) (s : SimState)
    (h : s.t < 10) : simMeasure (simStep p s) < simMeasure s := by
  unfold simMeasure
  rw [simStep_t]
  have hpos : (0 : ℤ) < Int.ceil ((10 - s.t) * 1000) := by
    rw [Int.ceil_pos]
    nlinarith
  have harg : (10 - (s.t + TIME_STEP)) * 1000 = (10 - s.t) * 1000 - 1 := by
    unfold TIME_STEP; ring
  rw [harg]
  rw [show ((10 - s.t) * 1000 - 1 : ℝ) = (10 - s.t) * 1000 - (1 : ℤ) by norm_num]
  rw [Int.ceil_sub_int]
  omega

/-- The `while (y > 0 && t < 10)` loop of `calculateThrowWithDrag`. -/
noncomputable def simLoop (p : PhysicsParams) (s : SimState) : SimState :=
  if simGuard s then simLoop p (simStep p s) else s
termination_by simMeasure s
decreasing_by rename_i hg; exact simMeasure_decreases p s hg.2

/-- `calculateThrowWithDrag` from `physics.ts`. -/
noncomputable def calculateThrowWithDrag (p : PhysicsParams) : PhysicsResult :=
  let s0 : SimState :=
    ⟨0, p.releaseHeight, p.vx0, p.vy0, 0, p.releaseHeight,
      [⟨0, p.releaseHeight, 0⟩]⟩
  let sf := simLoop p s0
  let landingV := Real.sqrt (sf.vx * sf.vx + sf.vy * sf.vy)
  { distance := sf.x
    flightTime := sf.t
    maxHeight := sf.maxHeight
    landingVelocity := landingV
    trajectory := sf.trajectory ++ [⟨sf.x, 0, sf.t⟩] }

/-- On exit the loop guard is false: the simulation has either crossed the
ground or reached the time cap. -/
theorem simLoop_exit (p : PhysicsParams) (s : SimState) :
    ¬ simGuard (simLoop p s) := by
  have H : ∀ (k : ℕ) (s : SimState), simMeasure s ≤ k →
      ¬ simGuard (simLoop p s) := by
    intro k
    induction k with
    | zero =>
      intro s hs
      rw [simLoop]
      by_cases hg : simGuard s
      · exfalso
        have := simMeasure_decreases p s hg.2
        omega
      · simp [hg]
    | succ n ih =>
      intro s hs
      rw [simLoop]
      by_cases hg : simGuard s
      · have := simMeasure_decreases p s hg.2
        simpa [hg] using ih (simStep p s) (by omega)
      · simp [hg]
  exact H (simMeasure s) s le_rfl

/-- The loop never pushes `t` beyond `10 + TIME_STEP`. -/
theorem simLoop_t_le (p : PhysicsParams) (s : SimState)
    (h : s.t ≤ 10 + TIME_STEP) : (simLoop p s).t ≤ 10 + TIME_STEP := by
  have H : ∀ (k : ℕ) (s : SimState), simMeasure s ≤ k →
      s.t ≤ 10 + TIME_STEP → (simLoop p s).t ≤ 10 + TIME_STEP := by
    intro k
    induction k with
    | zero =>
      intro s hs ht
      rw [simLoop]
      by_cases hg : simGuard s
      · exfalso
        have := simMeasure_decreases p s hg.2
        omega
      · rw [if_neg hg]; exact ht
    | succ n ih =>
      intro s hs ht
      rw [simLoop]
      by_cases hg : simGuard s
      · have hd := simMeasure_decreases p s hg.2
        have ht' : (simStep p s).t ≤ 10 + TIME_STEP := by
          rw [simStep_t]
          unfold TIME_STEP
          have := hg.2
          linarith
        simpa [hg] using ih (simStep p s) (by omega) ht'
      · rw [if_neg hg]; exact ht
  exact H (simMeasure s) s le_rfl h

/-! ## Embedding of the velocity estimators -/

/-- `VelocityVector` from `src/lib/physics/velocityFit.ts`. -/
structure VelocityVector where
  vx : ℝ
  vy : ℝ

/-- The velocity estimate `{vx, vy, confidence}` returned by
`fitVelocityFromPositions` in `physics.ts`. -/
structure VelocityEstimate where
  vx : ℝ
  vy : ℝ
  confidence : ℝ

/-- The normal-equations denominator `n·Σt² − (Σt)²` of the constant-velocity
least-squares fit, the quantity both fitters test before dividing. -/
def designDenominator (ps : List Pt3) : ℝ :=
  (ps.length : ℝ) * (ps.map (fun p => p.t * p.t)).sum -
    (ps.map (fun p => p.t)).sum * (ps.map (fun p => p.t)).sum

/-- `fitVelocity` from `src/lib/physics/velocityFit.ts`: closed-form
least-squares slope for `x(t)` and `y(t)`, `null` on fewer than two points or
a singular design matrix. -/
noncomputable def fitVelocity (points : List Pt3) : Option VelocityVector :=
  if points.length < 2 then none
  else
    let n : ℝ := points.length
    let sumT := (points.map (fun p => p.t)).sum
    let sumTT := (points.map (fun p => p.t * p.t)).sum
    let sumX := (points.map (fun p => p.x)).sum
    let sumXT := (points.map (fun p => p.x * p.t)).sum
    let sumY := (points.map (fun p => p.y)).sum
    let sumYT := (points.map (fun p => p.y * p.t)).sum
    let denom := n * sumTT - sumT * sumT
    if denom = 0 then none
    else some ⟨(n * sumXT - sumT * sumX) / denom, (n * sumYT - sumT * sumY) / denom⟩

open Classical

/-- `fitVelocityFromPositions` from `physics.ts`: same regression after a
pixels-to-meters conversion, zero result on fewer than three points or a
near-singular denominator, confidence `min(R²x, R²y)`. -/
noncomputable def fitVelocityFromPositions (positions : List Pt3)
    (pixelsPerMeter : ℝ) : VelocityEstimate :=
  if positions.length < 3 then ⟨0, 0, 0⟩
  else
    let n : ℝ := positions.length
    let meters := positions.map
      (fun p => Pt3.mk (p.x / pixelsPerMeter) (p.y / pixelsPerMeter) p.t)
    let sumT := (meters.map (fun p => p.t)).sum
    let sumX := (meters.map (fun p => p.x)).sum
    let sumY := (meters.map (fun p => p.y)).sum
    let sumTT := (meters.map (fun p => p.t * p.t)).sum
    let sumTX := (meters.map (fun p => p.t * p.x)).sum
    let sumTY := (meters.map (fun p => p.t * p.y)).sum
    let denominator := n * sumTT - sumT * sumT
    if |denominator| < 1e-10 then ⟨0, 0, 0⟩
    else
      let vx := (n * sumTX - sumT * sumX) / denominator
      let vy := (n * sumTY - sumT * sumY) / denominator
      let xMean := sumX / n
      let yMean := sumY / n
      let ssResX := (meters.map
        (fun p => (p.x - (vx * p.t + (sumX - vx * sumT) / n)) ^ 2)).sum
      let ssTotX := (meters.map (fun p => (p.x - xMean) ^ 2)).sum
      let ssResY := (meters.map
        (fun p => (p.y - (vy * p.t + (sumY - vy * sumT) / n)) ^ 2)).sum
      let ssTotY := (meters.map (fun p => (p.y - yMean) ^ 2)).sum
      let r2X : ℝ := if ssTotX > 0 then 1 - ssResX / ssTotX else 0
      let r2Y : ℝ := if ssTotY > 0 then 1 - ssResY / ssTotY else 0
      ⟨vx, vy, min r2X r2Y⟩

/-! ## Embedding of `calculateDistanceConfidence` (`physics-engine.ts`) -/

/-- JavaScript `Math.round` on the values reached here: round half up,
`⌊x + 1/2⌋`. -/
noncomputable def jsRound (x : ℝ) : ℝ := ((⌊x + 1 / 2⌋ : ℤ) : ℝ)

/-- `calculateDistanceConfidence` from `physics-engine.ts`. -/
noncomputable def calculateDistanceConfidence
    (trackedDistance predictedDistance : ℝ) : ℝ :=
  if trackedDistance ≤ 0 ∨ predictedDistance ≤ 0 then 0
  else
    let diff := |trackedDistance - predictedDistance|
    let avg := (trackedDistance + predictedDistance) / 2
    let relativeError := diff / avg
    let confidence := max 0 (1 - relativeError)
    jsRound (confidence * 100) / 100

/-- The spec's clamp: `clamp(x, lo, hi)`. -/
noncomputable def clamp (x lo hi : ℝ) : ℝ := max lo (min hi x)

/-- The spec's rounding to two decimal places. -/
noncomputable def roundTo2 (x : ℝ) : ℝ := jsRound (x * 100) / 100

theorem jsRound_eq (x : ℝ) (n : ℤ) (h1 : (n : ℝ) ≤ x + 1 / 2)
    (h2 : x + 1 / 2 < n + 1) : jsRound x = n := by
  unfold jsRound
  norm_cast
  rw [Int.floor_eq_iff]
  refine ⟨h1, by linarith⟩

theorem jsRound_mono {x y : ℝ} (h : x ≤ y) : jsRound x ≤ jsRound y := by
  unfold jsRound
  have hf : ⌊x + 1 / 2⌋ ≤ ⌊y + 1 / 2⌋ :=
    Int.floor_le_floor (by linarith)
  exact_mod_cast hf

/-! ## Claim theorems (first group) -/

/-- C1: for every input the drag-integrated loop of `calculateThrowWithDrag`
terminates (the loop is a well-founded recursion on the time variable),
exiting only with the height at or below zero or the elapsed time at or past
the 10-second cap, and the returned `flightTime` never exceeds the cap plus
one timestep. -/
theorem drag_loop_terminates_within_cap (p : PhysicsParams) :
    (calculateThrowWithDrag p).flightTime ≤ 10 + TIME_STEP ∧
    ((simLoop p ⟨0, p.releaseHeight, p.vx0, p.vy0, 0, p.releaseHeight,
        [⟨0, p.releaseHeight, 0⟩]⟩).y ≤ 0 ∨
      10 ≤ (simLoop p ⟨0, p.releaseHeight, p.vx0, p.vy0, 0, p.releaseHeight,
        [⟨0, p.releaseHeight, 0⟩]⟩).t) := by
  constructor
  · have h1 : (calculateThrowWithDrag p).flightTime =
        (simLoop p ⟨0, p.releaseHeight, p.vx0, p.vy0, 0, p.releaseHeight,
          [⟨0, p.releaseHeight, 0⟩]⟩).t := rfl
    rw [h1]
    apply simLoop_t_le
    unfold TIME_STEP
    norm_num
  · have h2 := simLoop_exit p ⟨0, p.releaseHeight, p.vx0, p.vy0, 0,
      p.releaseHeight, [⟨0, p.releaseHeight, 0⟩]⟩
    unfold simGuard at h2
    exact (not_and_or.mp h2).imp not_lt.mp not_lt.mp

/-- C5: a window whose design matrix is singular (`n·Σt² − (Σt)² = 0`, e.g.
all points at one timestamp) makes `fitVelocity` return `none` and
`fitVelocityFromPositions` return the zero-confidence zero estimate — neither
divides by the vanishing denominator. -/
theorem singular_design_matrix_returns_null (ps : List Pt3)
    (pixelsPerMeter : ℝ) (h : designDenominator ps = 0) :
    fitVelocity ps = none ∧
      fitVelocityFromPositions ps pixelsPerMeter = ⟨0, 0, 0⟩ := by
  unfold designDenominator at h
  constructor
  · unfold fitVelocity
    by_cases hn : ps.length < 2
    · simp [hn]
    · simp only [if_neg hn]
      rw [if_pos h]
  · unfold fitVelocityFromPositions
    by_cases hn : ps.length < 3
    · simp [hn]
    · simp only [if_neg hn, List.map_map]
      have ht : (fun p : Pt3 => p.t) ∘
          (fun p : Pt3 => Pt3.mk (p.x / pixelsPerMeter) (p.y / pixelsPerMeter)
            p.t) = fun p : Pt3 => p.t := rfl
      have htt : (fun p : Pt3 => p.t * p.t) ∘
          (fun p : Pt3 => Pt3.mk (p.x / pixelsPerMeter) (p.y / pixelsPerMeter)
            p.t) = fun p : Pt3 => p.t * p.t := rfl
      rw [ht, htt, if_pos (by rw [h]; norm_num)]

/-- C5 witness: three points sharing timestamp 1 have a singular design
matrix, and both fitters refuse to estimate. -/
theorem singular_design_matrix_returns_null_witness :
    designDenominator [⟨0, 0, 1⟩, ⟨1, 1, 1⟩, ⟨2, 2, 1⟩] = 0 ∧
      (fitVelocity [⟨0, 0, 1⟩, ⟨1, 1, 1⟩, ⟨2, 2, 1⟩] = none ∧
        fitVelocityFromPositions [⟨0, 0, 1⟩, ⟨1, 1, 1⟩, ⟨2, 2, 1⟩] 100 =
          ⟨0, 0, 0⟩) :=
  ⟨by norm_num [designDenominator],
    singular_design_matrix_returns_null _ 100 (by norm_num [designDenominator])⟩

/-- C3: `calculateDistanceConfidence` returns 0 when either distance is
nonpositive and otherwise the clamp-to-[0,1] of one minus the relative
error, rounded to two decimals, exactly as the spec's formula states. -/
theorem distance_confidence_formula (t p : ℝ) :
    calculateDistanceConfidence t p =
      if t ≤ 0 ∨ p ≤ 0 then 0
      else roundTo2 (clamp (1 - |t - p| / ((t + p) / 2)) 0 1) := by
  by_cases h : t ≤ 0 ∨ p ≤ 0
  · simp [calculateDistanceConfidence, h]
  · push_neg at h
    obtain ⟨ht, hp⟩ := h
    have hnot : ¬(t ≤ 0 ∨ p ≤ 0) := by
      push_neg
      exact ⟨ht, hp⟩
    simp only [calculateDistanceConfidence, roundTo2, clamp, if_neg hnot]
    have havg : (0 : ℝ) < (t + p) / 2 := by linarith
    have hrel : (0 : ℝ) ≤ |t - p| / ((t + p) / 2) :=
      div_nonneg (abs_nonneg _) (le_of_lt havg)
    rw [min_eq_right (by linarith)]

/-- C4 counterexample: two pairs with the same mean (1) and strictly larger
distance gap (0.002 versus 0.004) get the identical confidence 1 after the
two-decimal rounding, so the confidence does not strictly decrease in the
gap. -/
theorem distance_confidence_not_strictly_decreasing :
    (1.001 : ℝ) + 0.999 = 1.002 + 0.998 ∧
    |(1.001 : ℝ) - 0.999| < |(1.002 : ℝ) - 0.998| ∧
    calculateDistanceConfidence 1.001 0.999 =
      calculateDistanceConfidence 1.002 0.998 := by
  refine ⟨by norm_num, ?_, ?_⟩
  · rw [abs_of_pos (by norm_num), abs_of_pos (by norm_num)]
    norm_num
  · have e1 : calculateDistanceConfidence 1.001 0.999 = 1 := by
      simp only [calculateDistanceConfidence, if_neg (by norm_num :
        ¬((1.001 : ℝ) ≤ 0 ∨ (0.999 : ℝ) ≤ 0))]
      rw [show |(1.001 : ℝ) - 0.999| = 0.002 by
        rw [abs_of_pos (by norm_num)]; norm_num]
      rw [show max (0 : ℝ) (1 - 0.002 / ((1.001 + 0.999) / 2)) = 0.998 by
        rw [max_eq_right (by norm_num)]; norm_num]
      rw [show (0.998 : ℝ) * 100 = 99.8 by norm_num]
      rw [jsRound_eq 99.8 100 (by norm_num) (by norm_num)]
      norm_num
    have e2 : calculateDistanceConfidence 1.002 0.998 = 1 := by
      simp only [calculateDistanceConfidence, if_neg (by norm_num :
        ¬((1.002 : ℝ) ≤ 0 ∨ (0.998 : ℝ) ≤ 0))]
      rw [show |(1.002 : ℝ) - 0.998| = 0.004 by
        rw [abs_of_pos (by norm_num)]; norm_num]
      rw [show max (0 : ℝ) (1 - 0.004 / ((1.002 + 0.998) / 2)) = 0.996 by
        rw [max_eq_right (by norm_num)]; norm_num]
      rw [show (0.996 : ℝ) * 100 = 99.6 by norm_num]
      rw [jsRound_eq 99.6 100 (by norm_num) (by norm_num)]
      norm_num
    rw [e1, e2]

/-- C4 amended: with both distances positive and the mean held fixed, the
confidence is weakly decreasing in the distance gap (strictness fails only
because of the clamp at zero and the two-decimal rounding). -/
theorem distance_confidence_antitone_in_gap (t1 p1 t2 p2 : ℝ)
    (ht1 : 0 < t1) (hp1 : 0 < p1) (ht2 : 0 < t2) (hp2 : 0 < p2)
    (hmean : t1 + p1 = t2 + p2) (hgap : |t1 - p1| ≤ |t2 - p2|) :
    calculateDistanceConfidence t2 p2 ≤ calculateDistanceConfidence t1 p1 := by
  have h1 : ¬(t1 ≤ 0 ∨ p1 ≤ 0) := by push_neg; exact ⟨ht1, hp1⟩
  have h2 : ¬(t2 ≤ 0 ∨ p2 ≤ 0) := by push_neg; exact ⟨ht2, hp2⟩
  simp only [calculateDistanceConfidence, if_neg h1, if_neg h2]
  have havg : (0 : ℝ) < (t1 + p1) / 2 := by linarith
  have hrel : |t1 - p1| / ((t1 + p1) / 2) ≤ |t2 - p2| / ((t2 + p2) / 2) := by
    rw [← hmean]
    gcongr
  have hconf : max 0 (1 - |t2 - p2| / ((t2 + p2) / 2)) ≤
      max 0 (1 - |t1 - p1| / ((t1 + p1) / 2)) :=
    max_le_max le_rfl (by linarith)
  have : jsRound (max 0 (1 - |t2 - p2| / ((t2 + p2) / 2)) * 100) ≤
      jsRound (max 0 (1 - |t1 - p1| / ((t1 + p1) / 2)) * 100) :=
    jsRound_mono (by nlinarith)
  linarith

/-- C4 witness: concrete positive pairs with equal mean 2 and gaps 2 ≤ 3. -/
theorem distance_confidence_antitone_in_gap_witness :
    calculateDistanceConfidence 3.5 0.5 ≤ calculateDistanceConfidence 3 1 :=
  distance_confidence_antitone_in_gap 3 1 3.5 0.5 (by norm_num) (by norm_num)
    (by norm_num) (by norm_num) (by norm_num)
    (by rw [abs_of_pos (by norm_num), abs_of_pos (by norm_num)]; norm_num)

/-! ## Embedding of `detectReleaseAndLanding`
(identical in `hammer-tracker.ts` and `tracking.worker.ts`) -/

/-- The `velocities` array of `detectReleaseAndLanding`: Euclidean distance
between each pair of consecutive trajectory points. -/
noncomputable def stepSpeeds (trajectory : List Pt) : List ℝ :=
  (trajectory.zip trajectory.tail).map
    (fun q => Real.sqrt ((q.2.x - q.1.x) * (q.2.x - q.1.x) +
      (q.2.y - q.1.y) * (q.2.y - q.1.y)))

/-- `velocities.slice(i-5, i).reduce(+)/5`: average of the five speeds before
step `i`. -/
noncomputable def avgBefore5 (vels : List ℝ) (i : ℕ) : ℝ :=
  ((vels.drop (i - 5)).take 5).sum / 5

/-- `velocities.slice(i, i+5).reduce(+)/5`: average of the five speeds from
step `i` on. -/
noncomputable def avgAfter5 (vels : List ℝ) (i : ℕ) : ℝ :=
  ((vels.drop i).take 5).sum / 5

/-- The `increase` examined at step `i`: following five-step average minus
preceding five-step average. -/
noncomputable def speedDelta (vels : List ℝ) (i : ℕ) : ℝ :=
  avgAfter5 vels i - avgBefore5 vels i

/-- The release-detection loop: scan `i = 5 .. velocities.length − 6`,
keeping the first index whose `increase` strictly beats the running maximum,
which starts at 0 with `releaseIndex = 0`. -/
noncomputable def releaseScan (vels : List ℝ) : ℕ × ℝ :=
  (List.range' 5 (vels.length - 10)).foldl
    (fun st i => if speedDelta vels i > st.2 then (i, speedDelta vels i) else st)
    (0, 0)

/-- `velocities.slice(i, i+3).reduce(+)/3`: forward three-step average speed,
used by the landing scan. -/
noncomputable def avg3 (vels : List ℝ) (i : ℕ) : ℝ :=
  ((vels.drop i).take 3).sum / 3

/-- Return type of `detectReleaseAndLanding`. -/
structure DetectResult where
  releasePoint : Option Pt
  landingPoint : Option Pt
  releaseFrame : ℕ

/-- `detectReleaseAndLanding`: under ten points signals insufficient data;
otherwise picks the release step by the five-step speed-delta scan and the
landing step as the first index from `releaseIndex + 10` whose three-step
average speed falls below 2, defaulting to the last index. -/
noncomputable def detectReleaseAndLanding (trajectory : List Pt) :
    DetectResult :=
  if trajectory.length < 10 then ⟨none, none, 0⟩
  else
    let velocities := stepSpeeds trajectory
    let releaseIndex := (releaseScan velocities).1
    let landingIndex :=
      ((List.range' (releaseIndex + 10)
          (velocities.length - 3 - (releaseIndex + 10))).find?
        (fun i => decide (avg3 velocities i < 2))).getD
        (trajectory.length - 1)
    ⟨trajectory.get? releaseIndex, trajectory.get? landingIndex, releaseIndex⟩

/-- Behaviour of the release-scan fold over a strictly increasing index list:
either nothing strictly beat the initial maximum and the initial state
survives, or the result is the first index attaining the (positive beyond
`m0`) maximum delta. -/
theorem releaseFold_characterization (f : ℕ → ℝ) :
    ∀ (l : List ℕ) (r0 : ℕ) (m0 : ℝ), l.Pairwise (· < ·) →
    (∀ i ∈ l, r0 < i) →
    (l.foldl (fun st i => if f i > st.2 then (i, f i) else st) (r0, m0) =
        (r0, m0) ∧ ∀ i ∈ l, f i ≤ m0) ∨
    ((l.foldl (fun st i => if f i > st.2 then (i, f i) else st) (r0, m0)).1 ∈ l ∧
      (l.foldl (fun st i => if f i > st.2 then (i, f i) else st) (r0, m0)).2 =
        f (l.foldl (fun st i => if f i > st.2 then (i, f i) else st) (r0, m0)).1 ∧
      m0 < (l.foldl (fun st i => if f i > st.2 then (i, f i) else st) (r0, m0)).2 ∧
      (∀ i ∈ l, f i ≤
        (l.foldl (fun st i => if f i > st.2 then (i, f i) else st) (r0, m0)).2) ∧
      ∀ i ∈ l, i < (l.foldl (fun st i => if f i > st.2 then (i, f i) else st)
          (r0, m0)).1 →
        f i < (l.foldl (fun st i => if f i > st.2 then (i, f i) else st)
          (r0, m0)).2) := by
  intro l
  induction l with
  | nil =>
    intro r0 m0 _ _
    left
    exact ⟨rfl, by simp⟩
  | cons a rest ih =>
    intro r0 m0 hpw hgt
    have hrest : ∀ i ∈ rest, a < i := by
      intro i hi
      exact (List.pairwise_cons.mp hpw).1 i hi
    by_cases hfa : f a > m0
    · have step1 : (a :: rest).foldl
          (fun st i => if f i > st.2 then (i, f i) else st) (r0, m0) =
          rest.foldl (fun st i => if f i > st.2 then (i, f i) else st)
            (a, f a) := by
        simp [List.foldl_cons, hfa]
      rcases ih a (f a) (List.pairwise_cons.mp hpw).2 hrest with
        ⟨heq, hall⟩ | ⟨hmem, hval, hlt, hall, hfirst⟩
      · right
        rw [step1, heq]
        refine ⟨by simp, rfl, hfa, ?_, ?_⟩
        · intro i hi
          rcases List.mem_cons.mp hi with rfl | hi'
          · exact le_refl _
          · exact hall i hi'
        · intro i hi hlt'
          rcases List.mem_cons.mp hi with rfl | hi'
          · omega
          · exact absurd hlt' (by have := hrest i hi'; omega)
      · right
        rw [step1]
        refine ⟨List.mem_cons_of_mem a hmem, hval, lt_trans hfa hlt, ?_, ?_⟩
        · intro i hi
          rcases List.mem_cons.mp hi with rfl | hi'
          · exact le_of_lt hlt
          · exact hall i hi'
        · intro i hi hlt'
          rcases List.mem_cons.mp hi with rfl | hi'
          · exact hlt
          · exact hfirst i hi' hlt'
    · have step1 : (a :: rest).foldl
          (fun st i => if f i > st.2 then (i, f i) else st) (r0, m0) =
          rest.foldl (fun st i => if f i > st.2 then (i, f i) else st)
            (r0, m0) := by
        simp [List.foldl_cons, hfa]
      have hgt' : ∀ i ∈ rest, r0 < i := fun i hi => hgt i (List.mem_cons_of_mem a hi)
      rcases ih r0 m0 (List.pairwise_cons.mp hpw).2 hgt' with
        ⟨heq, hall⟩ | ⟨hmem, hval, hlt, hall, hfirst⟩
      · left
        rw [step1, heq]
        refine ⟨rfl, ?_⟩
        intro i hi
        rcases List.mem_cons.mp hi with rfl | hi'
        · exact not_lt.mp hfa
        · exact hall i hi'
      · right
        rw [step1]
        refine ⟨List.mem_cons_of_mem a hmem, hval, hlt, ?_, ?_⟩
        · intro i hi
          rcases List.mem_cons.mp hi with rfl | hi'
          · exact le_trans (not_lt.mp hfa) (le_of_lt hlt)
          · exact hall i hi'
        · intro i hi hlt'
          rcases List.mem_cons.mp hi with rfl | hi'
          · exact lt_of_le_of_lt (not_lt.mp hfa) hlt
          · exact hfirst i hi' hlt'

/-- An interior step index in the claim's sense: at least five steps on each
side among the per-step speeds. -/
def interiorStep (vels : List ℝ) (i : ℕ) : Prop :=
  5 ≤ i ∧ i + 5 ≤ vels.length

/-- C7's assertion at one input: the returned release index is interior and
attains the maximum speed delta among interior indices, first on ties. -/
noncomputable def releaseClaim (trajectory : List Pt) : Prop :=
  let vels := stepSpeeds trajectory
  let rf := (detectReleaseAndLanding trajectory).releaseFrame
  interiorStep vels rf ∧
    (∀ i, interiorStep vels i → speedDelta vels i ≤ speedDelta vels rf) ∧
    ∀ i, interiorStep vels i → speedDelta vels i = speedDelta vels rf → rf ≤ i

/-- Helper for evaluating the square roots that arise from concrete
trajectories. -/
theorem sqrt_num_eq (a b : ℝ) (hb : 0 ≤ b) (h : b * b = a) :
    Real.sqrt a = b := by
  rw [← h, Real.sqrt_mul_self hb]

/-- What the release scan actually guarantees: either no scanned index had a
positive speed delta and `releaseFrame` stays 0, or `releaseFrame` is the
first index in the scanned range `[5, steps − 6]` attaining the maximum
(positive) speed delta. -/
noncomputable def releaseScanSpec (trajectory : List Pt) : Prop :=
  ((detectReleaseAndLanding trajectory).releaseFrame = 0 ∧
    ∀ i ∈ List.range' 5 ((stepSpeeds trajectory).length - 10),
      speedDelta (stepSpeeds trajectory) i ≤ 0) ∨
  ((detectReleaseAndLanding trajectory).releaseFrame ∈
      List.range' 5 ((stepSpeeds trajectory).length - 10) ∧
    0 < speedDelta (stepSpeeds trajectory)
        (detectReleaseAndLanding trajectory).releaseFrame ∧
    (∀ i ∈ List.range' 5 ((stepSpeeds trajectory).length - 10),
      speedDelta (stepSpeeds trajectory) i ≤
        speedDelta (stepSpeeds trajectory)
          (detectReleaseAndLanding trajectory).releaseFrame) ∧
    ∀ i ∈ List.range' 5 ((stepSpeeds trajectory).length - 10),
      i < (detectReleaseAndLanding trajectory).releaseFrame →
        speedDelta (stepSpeeds trajectory) i <
          speedDelta (stepSpeeds trajectory)
            (detectReleaseAndLanding trajectory).releaseFrame)

/-- C6: a trajectory of fewer than ten points makes the segmenter return
`releaseFrame 0` with null release and landing points. -/
theorem short_trajectory_signals_insufficient_data (trajectory : List Pt)
    (h : trajectory.length < 10) :
    detectReleaseAndLanding trajectory = ⟨none, none, 0⟩ := by
  unfold detectReleaseAndLanding
  rw [if_pos h]

/-- C6 witness: the empty trajectory. -/
theorem short_trajectory_signals_insufficient_data_witness :
    detectReleaseAndLanding [] = ⟨none, none, 0⟩ :=
  short_trajectory_signals_insufficient_data [] (by simp)

/-- C7 amended: for a trajectory of at least ten points the release index is
the first index in the scanned range `[5, steps − 6]` attaining the maximum
five-step speed delta provided that maximum is positive; otherwise (including
whenever no index is scanned) it falls back to 0, which need not be an
interior index. -/
theorem release_index_first_max_of_scan (trajectory : List Pt)
    (h : 10 ≤ trajectory.length) : releaseScanSpec trajectory := by
  have hn : ¬ trajectory.length < 10 := not_lt.mpr h
  have hrf : (detectReleaseAndLanding trajectory).releaseFrame =
      (releaseScan (stepSpeeds trajectory)).1 := by
    simp [detectReleaseAndLanding, hn]
  have hchar := releaseFold_characterization
    (speedDelta (stepSpeeds trajectory))
    (List.range' 5 ((stepSpeeds trajectory).length - 10)) 0 0
    (List.pairwise_lt_range' _ _)
    (fun i hi => by have := List.mem_range'_1.mp hi; omega)
  unfold releaseScanSpec
  rcases hchar with ⟨heq, hall⟩ | ⟨hmem, hval, hlt, hall, hfirst⟩
  · left
    refine ⟨?_, hall⟩
    rw [hrf]
    unfold releaseScan
    rw [heq]
  · right
    have hscan : releaseScan (stepSpeeds trajectory) =
        (List.range' 5 ((stepSpeeds trajectory).length - 10)).foldl
          (fun st i => if speedDelta (stepSpeeds trajectory) i > st.2
            then (i, speedDelta (stepSpeeds trajectory) i) else st)
          (0, 0) := rfl
    rw [hrf, hscan]
    refine ⟨hmem, ?_, ?_, ?_⟩
    · rw [← hval]; exact hlt
    · intro i hi
      rw [← hval]; exact hall i hi
    · intro i hi hlt'
      rw [← hval]; exact hfirst i hi hlt'

/-- An eleven-point straight-line trajectory with unit steps, used as a
witness input: nothing is scanned (steps = 10), so the fallback 0 applies. -/
noncomputable def trajStraight11 : List Pt :=
  [⟨0, 0⟩, ⟨1, 0⟩, ⟨2, 0⟩, ⟨3, 0⟩, ⟨4, 0⟩, ⟨5, 0⟩, ⟨6, 0⟩, ⟨7, 0⟩, ⟨8, 0⟩,
    ⟨9, 0⟩, ⟨10, 0⟩]

/-- C7 amended witness. -/
theorem release_index_first_max_of_scan_witness :
    10 ≤ trajStraight11.length ∧ releaseScanSpec trajStraight11 :=
  ⟨by simp [trajStraight11],
    release_index_first_max_of_scan trajStraight11 (by simp [trajStraight11])⟩

/-- A twelve-point trajectory along the x-axis with strictly shrinking steps
11, 10, …, 1: every five-step speed delta is negative, so the scan's strict
improvement test never fires. -/
noncomputable def trajDecel12 : List Pt :=
  [⟨0, 0⟩, ⟨11, 0⟩, ⟨21, 0⟩, ⟨30, 0⟩, ⟨38, 0⟩, ⟨45, 0⟩, ⟨51, 0⟩, ⟨56, 0⟩,
    ⟨60, 0⟩, ⟨63, 0⟩, ⟨65, 0⟩, ⟨66, 0⟩]

theorem trajDecel12_speeds :
    stepSpeeds trajDecel12 = [11, 10, 9, 8, 7, 6, 5, 4, 3, 2, 1] := by
  simp only [trajDecel12, stepSpeeds, List.tail_cons, List.zip_cons_cons,
    List.zip_nil_right, List.map_cons, List.map_nil]
  norm_num
  simp only [sqrt_num_eq 121 11 (by norm_num) (by norm_num),
    sqrt_num_eq 100 10 (by norm_num) (by norm_num),
    sqrt_num_eq 81 9 (by norm_num) (by norm_num),
    sqrt_num_eq 64 8 (by norm_num) (by norm_num),
    sqrt_num_eq 49 7 (by norm_num) (by norm_num),
    sqrt_num_eq 36 6 (by norm_num) (by norm_num),
    sqrt_num_eq 25 5 (by norm_num) (by norm_num),
    sqrt_num_eq 16 4 (by norm_num) (by norm_num),
    sqrt_num_eq 9 3 (by norm_num) (by norm_num),
    sqrt_num_eq 4 2 (by norm_num) (by norm_num),
    sqrt_num_eq 1 1 (by norm_num) (by norm_num)]
  norm_num

/-- C7 counterexample: on the decelerating twelve-point trajectory the code
returns `releaseFrame 0`, which is not an interior index at all, let alone
the interior maximizer of the speed delta. -/
theorem release_index_claim_counterexample :
    10 ≤ trajDecel12.length ∧ ¬ releaseClaim trajDecel12 := by
  have hlen : trajDecel12.length = 12 := by simp [trajDecel12]
  have hscan : releaseScan [11, 10, 9, 8, 7, 6, 5, 4, 3, 2, 1] = (0, 0) := by
    unfold releaseScan
    norm_num [speedDelta, avgAfter5, avgBefore5, List.range'_one]
  have hrf : (detectReleaseAndLanding trajDecel12).releaseFrame = 0 := by
    have hn : ¬ trajDecel12.length < 10 := by rw [hlen]; norm_num
    simp only [detectReleaseAndLanding, if_neg hn]
    rw [trajDecel12_speeds, hscan]
  constructor
  · rw [hlen]; norm_num
  · unfold releaseClaim
    intro hcl
    obtain ⟨hint, -, -⟩ := hcl
    rw [hrf] at hint
    exact absurd hint.1 (by omega)

/-! ## Embedding of the turn analyzer (`analyzeTurns` and helpers) -/

/-- JavaScript `Math.atan2(y, x)`: the argument of the complex number
`x + i·y`, in `(-π, π]`, with `atan2(0, 0) = 0`. -/
noncomputable def jsAtan2 (y x : ℝ) : ℝ := Complex.arg ⟨x, y⟩

/-- The `while (d > Math.PI) d -= 2 * Math.PI` loop of `unwrapAngles`. -/
noncomputable def wrapDown (d : ℝ) : ℝ :=
  if d > Real.pi then wrapDown (d - 2 * Real.pi) else d
termination_by (Int.ceil ((d - Real.pi) / (2 * Real.pi))).toNat
decreasing_by
  rename_i hd
  have h2pi : (0 : ℝ) < 2 * Real.pi := by positivity
  have harg : (d - 2 * Real.pi - Real.pi) / (2 * Real.pi) =
      (d - Real.pi) / (2 * Real.pi) - 1 := by
    field_simp
    ring
  rw [harg, Int.ceil_sub_one]
  have hpos : 0 < Int.ceil ((d - Real.pi) / (2 * Real.pi)) := by
    rw [Int.ceil_pos]
    exact div_pos (by linarith) h2pi
  omega

/-- The `while (d < -Math.PI) d += 2 * Math.PI` loop of `unwrapAngles`. -/
noncomputable def wrapUp (d : ℝ) : ℝ :=
  if d < -Real.pi then wrapUp (d + 2 * Real.pi) else d
termination_by (Int.ceil ((-Real.pi - d) / (2 * Real.pi))).toNat
decreasing_by
  rename_i hd
  have h2pi : (0 : ℝ) < 2 * Real.pi := by positivity
  have harg : (-Real.pi - (d + 2 * Real.pi)) / (2 * Real.pi) =
      (-Real.pi - d) / (2 * Real.pi) - 1 := by
    field_simp
    ring
  rw [harg, Int.ceil_sub_one]
  have hpos : 0 < Int.ceil ((-Real.pi - d) / (2 * Real.pi)) := by
    rw [Int.ceil_pos]
    exact div_pos (by linarith) h2pi
  omega

/-- Angle-difference normalization of `unwrapAngles`: both `while` loops in
source order. -/
noncomputable def wrapAdjust (d : ℝ) : ℝ := wrapUp (wrapDown d)

/-- The tail recursion of `unwrapAngles`: carry the previous raw angle and
the previous unwrapped output. -/
noncomputable def unwrapGo (prevRaw prevOut : ℝ) : List ℝ → List ℝ
  | [] => []
  | x :: xs =>
    let d := wrapAdjust (x - prevRaw)
    (prevOut + d) :: unwrapGo x (prevOut + d) xs

/-- `unwrapAngles` from the tracking module: resolve 2π discontinuities so
consecutive outputs differ by the wrapped delta. -/
noncomputable def unwrapAngles : List ℝ → List ℝ
  | [] => []
  | a :: rest => a :: unwrapGo a a rest

/-- `TurnMetrics` as produced by the analyzer. -/
structure TurnMetrics where
  turnNumber : ℕ
  startIndex : ℕ
  endIndex : ℕ
  durationSec : ℝ
  avgTangentialVelocity : ℝ
  peakTangentialVelocity : ℝ
  avgTangentialAcceleration : ℝ
  peakTangentialAcceleration : ℝ
  avgCentripetalAcceleration : ℝ
  peakCentripetalAcceleration : ℝ

/-- `summarizeTurn`: averages and peaks of the per-sample series restricted
to `slice(startIndex, endIndex + 1)`; an empty series contributes 0, as in
the source's `arr.length ? … : 0` guards. -/
noncomputable def summarizeTurn (turnNumber startIndex endIndex : ℕ)
    (dt : ℝ) (vTan aTan aCent : List ℝ) : TurnMetrics :=
  let seriesSlice := fun (arr : List ℝ) =>
    (arr.drop startIndex).take (endIndex + 1 - startIndex)
  let seriesAvg := fun (arr : List ℝ) =>
    if arr.length = 0 then (0 : ℝ) else arr.sum / arr.length
  let seriesPeak := fun (arr : List ℝ) =>
    match arr with
    | [] => (0 : ℝ)
    | x :: xs => xs.foldl max x
  let v := seriesSlice vTan
  let at' := seriesSlice aTan
  let ac := seriesSlice aCent
  { turnNumber := turnNumber
    startIndex := startIndex
    endIndex := endIndex
    durationSec := ((endIndex - startIndex : ℕ) : ℝ) * dt
    avgTangentialVelocity := seriesAvg v
    peakTangentialVelocity := seriesPeak v
    avgTangentialAcceleration := seriesAvg at'
    peakTangentialAcceleration := seriesPeak at'
    avgCentripetalAcceleration := seriesAvg ac
    peakCentripetalAcceleration := seriesPeak ac }

/-- The options record taken by `analyzeTurns`. -/
structure AnalyzeTurnsOptions where
  trajectory : List Pt
  releaseIndex : ℕ
  circleCenter : Pt
  scaleFactor : ℝ
  fps : ℝ
  frameStep : ℝ

/-- `analyzeTurns`: empty on fewer than 12 trajectory points or a release
index under 8; otherwise polar-angle unwrapping, angular kinematics, and a
turn boundary each time the cumulative signed rotation reaches 2π, plus a
trailing partial turn of at least 90°. JS loops over equal-length arrays are
rendered with `zipWith`, index loops with `range'` and `getD`. -/
noncomputable def analyzeTurns (o : AnalyzeTurnsOptions) : List TurnMetrics :=
  if o.trajectory.length < 12 ∨ o.releaseIndex < 8 then []
  else
    let dt := o.frameStep / o.fps
    let pre := o.trajectory.take (min (o.releaseIndex + 1) o.trajectory.length)
    let rawAngles := pre.map
      (fun p => jsAtan2 (p.y - o.circleCenter.y) (p.x - o.circleCenter.x))
    let angles := unwrapAngles rawAngles
    let totalRot := angles.getD (angles.length - 1) 0 - angles.getD 0 0
    let dir : ℝ := if totalRot ≥ 0 then 1 else -1
    let rMeters := pre.map
      (fun p => Real.sqrt ((p.x - o.circleCenter.x) * (p.x - o.circleCenter.x) +
        (p.y - o.circleCenter.y) * (p.y - o.circleCenter.y)) / o.scaleFactor)
    let omega := (0 : ℝ) :: (List.range' 1 (angles.length - 1)).map
      (fun i => (angles.getD i 0 - angles.getD (i - 1) 0) * dir / dt)
    let vTan := List.zipWith (fun w r => |w| * r) omega rMeters
    let aTan := (0 : ℝ) :: (List.range' 1 (vTan.length - 1)).map
      (fun i => (vTan.getD i 0 - vTan.getD (i - 1) 0) / dt)
    let aCent := List.zipWith (fun v r => v * v / max r 0.000001) vTan rMeters
    let seg := (List.range' 1 (angles.length - 1)).foldl
      (fun (st : ℕ × List TurnMetrics) i =>
        if (angles.getD i 0 - angles.getD st.1 0) * dir ≥ 2 * Real.pi then
          (i, st.2 ++ [summarizeTurn (st.2.length + 1) st.1 i dt vTan aTan aCent])
        else st) (0, [])
    let turns := seg.2
    if seg.1 < angles.length - 4 then
      if |(angles.getD (angles.length - 1) 0 - angles.getD seg.1 0) * dir| ≥
          Real.pi / 2 then
        turns ++ [summarizeTurn (turns.length + 1) seg.1 (angles.length - 1)
          dt vTan aTan aCent]
      else turns
    else turns

/-- C8: fewer than 12 points, or a release index under 8, makes the turn
analyzer return the empty list. -/
theorem analyze_turns_insufficient_swing (o : AnalyzeTurnsOptions)
    (h : o.trajectory.length < 12 ∨ o.releaseIndex < 8) :
    analyzeTurns o = [] := by
  unfold analyzeTurns
  rw [if_pos h]

/-- C8 witness: an empty trajectory (and release index 0). -/
theorem analyze_turns_insufficient_swing_witness :
    analyzeTurns ⟨[], 0, ⟨0, 0⟩, 100, 30, 1⟩ = [] :=
  analyze_turns_insufficient_swing ⟨[], 0, ⟨0, 0⟩, 100, 30, 1⟩
    (Or.inl (by simp))

/-! ## The two-point convenience entry point (modelled from the spec) -/

/-- `TimedPoint` from `src/lib/types.ts`. -/
structure TimedPoint where
  x : ℝ
  y : ℝ
  time : ℝ

/-- `CalculationResult` from `src/lib/types.ts` (without the optional
confidence). -/
structure CalculationResult where
  distance : ℝ
  velocity : ℝ
  angle : ℝ

/-- Modelled from the spec: the implementation of the two-point entry point
`calculateThrowWithDrag(p1, p2, pixelsPerMeter, releaseHeight, massKg,
diameterMm)` is missing from the provided sources — only its test file
exercises it. Per the spec it converts the two timed pixel positions to a
velocity by simple finite difference, special-cases `Δt == 0` by returning
the all-zero result, and otherwise runs the drag simulator from that
velocity. -/
noncomputable def calculateThrowWithDragTwoPoint (p1 p2 : TimedPoint)
    (pixelsPerMeter releaseHeight massKg diameterMm : ℝ) :
    CalculationResult :=
  let dtp := p2.time - p1.time
  if dtp = 0 then ⟨0, 0, 0⟩
  else
    let vx := (p2.x - p1.x) / pixelsPerMeter / dtp
    let vy := (p1.y - p2.y) / pixelsPerMeter / dtp
    let velocity := Real.sqrt (vx * vx + vy * vy)
    let angle := jsAtan2 vy vx * 180 / Real.pi
    let sim := calculateThrowWithDrag ⟨vx, vy, releaseHeight, massKg,
      diameterMm⟩
    ⟨sim.distance, velocity, angle⟩

/-- C2: two points with identical timestamps make the two-point entry point
return the all-zero result; no division by the zero time difference is
reached. -/
theorem two_point_zero_dt_guard (p1 p2 : TimedPoint)
    (pixelsPerMeter releaseHeight massKg diameterMm : ℝ)
    (h : p1.time = p2.time) :
    calculateThrowWithDragTwoPoint p1 p2 pixelsPerMeter releaseHeight massKg
      diameterMm = ⟨0, 0, 0⟩ := by
  unfold calculateThrowWithDragTwoPoint
  rw [if_pos (sub_eq_zero.mpr h.symm)]

/-- C2 witness: the test's concrete zero-Δt case, `{100,100,1}` and
`{110,90,1}` at 100 px/m, 1.8 m release height, men's implement. -/
theorem two_point_zero_dt_guard_witness :
    calculateThrowWithDragTwoPoint ⟨100, 100, 1⟩ ⟨110, 90, 1⟩ 100 1.8 7.26 110 =
      ⟨0, 0, 0⟩ :=
  two_point_zero_dt_guard ⟨100, 100, 1⟩ ⟨110, 90, 1⟩ 100 1.8 7.26 110 rfl

/-! ## C9: the vacuum-range bound -/

/-- Advancing the simulation loop along an explicit orbit of states: if the
guard holds at `s (a+m)` for all `m < k` and fails at `s (a+k)`, the loop
started at `s a` stops exactly at `s (a+k)`. -/
theorem simLoop_advance (p : PhysicsParams) (s : ℕ → SimState)
    (hstep : ∀ n, simStep p (s n) = s (n + 1)) :
    ∀ (k a : ℕ), (∀ m, m < k → simGuard (s (a + m))) →
    ¬ simGuard (s (a + k)) → simLoop p (s a) = s (a + k) := by
  intro k
  induction k with
  | zero =>
    intro a _ hend
    rw [simLoop, if_neg (by simpa using hend)]
    rfl
  | succ k ih =>
    intro a hall hend
    rw [simLoop, if_pos (by simpa using hall 0 (by omega)), hstep a]
    have hall' : ∀ m, m < k → simGuard (s (a + 1 + m)) := by
      intro m hm
      have := hall (m + 1) (by omega)
      rwa [show a + (m + 1) = a + 1 + m by omega] at this
    have hend' : ¬ simGuard (s (a + 1 + k)) := by
      rwa [show a + 1 + k = a + (k + 1) by omega]
    have := ih (a + 1) hall' hend'
    rwa [show a + 1 + k = a + (k + 1) by omega] at this

/-- The counterexample parameters for the vacuum-range bound: slow horizontal
speed 0.1 m/s, a 1000 m release height, unit mass and zero diameter (the
interface accepts arbitrary implement parameters, and zero diameter means
zero drag). -/
def p9 : PhysicsParams := ⟨0.1, 0, 1000, 1, 0⟩

/-- The closed-form state of the simulation under `p9` after `n` steps:
constant horizontal velocity, free-fall vertical velocity. -/
noncomputable def c9state (n : ℕ) : SimState :=
  { x := 0.1 * 0.001 * n
    y := 1000 - 9.81 * 0.000001 * (n * (n + 1)) / 2
    vx := 0.1
    vy := -(9.81 * 0.001 * n)
    t := 0.001 * n
    maxHeight := 1000
    trajectory := [⟨0, 1000, 0⟩] }

theorem calculateArea_zero : calculateArea 0 = 0 := by
  unfold calculateArea
  norm_num

theorem calculateDrag_zero_diameter (v m : ℝ) : calculateDrag v m 0 = 0 := by
  unfold calculateDrag
  rw [calculateArea_zero]
  ring

theorem c9_step (n : ℕ) : simStep p9 (c9state n) = c9state (n + 1) := by
  simp only [simStep, show p9.diameterMm = 0 from rfl,
    show p9.massKg = 1 from rfl, calculateDrag_zero_diameter, zero_div,
    zero_mul, neg_zero, add_zero, sub_zero]
  unfold c9state TIME_STEP G
  rw [SimState.mk.injEq]
  have hn0 : (0 : ℝ) ≤ (n : ℝ) := Nat.cast_nonneg n
  refine ⟨by push_cast; ring, by push_cast; ring, by ring, by push_cast; ring,
    by push_cast; ring, ?_, ?_⟩
  · split_ifs with hcase
    · exfalso
      push_cast at hcase
      nlinarith [hn0, sq_nonneg ((n : ℝ))]
    · rfl
  · split_ifs with hcase
    · simp at hcase
    · rfl

theorem c9_guard (n : ℕ) (h : n < 10000) : simGuard (c9state n) := by
  unfold simGuard c9state
  have hn : (n : ℝ) ≤ 9999 := by exact_mod_cast Nat.lt_succ_iff.mp h
  have hn0 : (0 : ℝ) ≤ (n : ℝ) := Nat.cast_nonneg n
  constructor
  · have hprod : (n : ℝ) * ((n : ℝ) + 1) ≤ 9999 * 10000 := by nlinarith
    show (0 : ℝ) < 1000 - 9.81 * 0.000001 * (n * (n + 1)) / 2
    nlinarith
  · show (0.001 : ℝ) * n < 10
    nlinarith

theorem c9_exit : ¬ simGuard (c9state 10000) := by
  unfold simGuard c9state
  intro hcl
  have := hcl.2
  norm_num at this

/-- C9 counterexample: at `p9` the speed is the nonzero 0.1 m/s and the
vacuum range `v²/g` is about 1 mm, yet the 10-second cap lets the simulated
distance reach a full metre: the returned distance is not below the vacuum
range. -/
theorem drag_below_vacuum_range_counterexample :
    p9.releaseHeight ≥ 0 ∧
    Real.sqrt (p9.vx0 * p9.vx0 + p9.vy0 * p9.vy0) ≠ 0 ∧
    ¬ ((calculateThrowWithDrag p9).distance <
        Real.sqrt (p9.vx0 * p9.vx0 + p9.vy0 * p9.vy0) ^ 2 / G) := by
  have hsqrt : Real.sqrt (p9.vx0 * p9.vx0 + p9.vy0 * p9.vy0) = 0.1 := by
    rw [show p9.vx0 = 0.1 from rfl, show p9.vy0 = 0 from rfl]
    rw [show (0.1 : ℝ) * 0.1 + 0 * 0 = 0.1 * 0.1 by ring]
    exact Real.sqrt_mul_self (by norm_num)
  have hinit : (⟨0, p9.releaseHeight, p9.vx0, p9.vy0, 0, p9.releaseHeight,
      [⟨0, p9.releaseHeight, 0⟩]⟩ : SimState) = c9state 0 := by
    unfold c9state
    rw [show p9.releaseHeight = 1000 from rfl, show p9.vx0 = 0.1 from rfl,
      show p9.vy0 = 0 from rfl, SimState.mk.injEq]
    norm_num
  have hloop : simLoop p9 (c9state 0) = c9state 10000 :=
    simLoop_advance p9 c9state c9_step 10000 0
      (fun m hm => by simpa using c9_guard m hm) (by simpa using c9_exit)
  have hdist : (calculateThrowWithDrag p9).distance = (c9state 10000).x := by
    show (simLoop p9 ⟨0, p9.releaseHeight, p9.vx0, p9.vy0, 0,
      p9.releaseHeight, [⟨0, p9.releaseHeight, 0⟩]⟩).x = (c9state 10000).x
    rw [hinit, hloop]
  refine ⟨by norm_num [p9], by rw [hsqrt]; norm_num, ?_⟩
  rw [hdist, hsqrt]
  unfold c9state G
  push_cast
  norm_num

/-- C9 amended: at release height 0 the loop body never runs (`y > 0` fails
immediately), so the returned distance is 0 — strictly below the vacuum
range `v²/g` whenever the speed is nonzero. For positive release heights the
bound can fail, as the 10-second cap allows arbitrary horizontal drift. -/
theorem drag_below_vacuum_range_at_zero_height (p : PhysicsParams)
    (h0 : p.releaseHeight = 0)
    (hv : Real.sqrt (p.vx0 * p.vx0 + p.vy0 * p.vy0) ≠ 0) :
    (calculateThrowWithDrag p).distance = 0 ∧
    (calculateThrowWithDrag p).distance <
      Real.sqrt (p.vx0 * p.vx0 + p.vy0 * p.vy0) ^ 2 / G := by
  have hloop : simLoop p ⟨0, p.releaseHeight, p.vx0, p.vy0, 0,
      p.releaseHeight, [⟨0, p.releaseHeight, 0⟩]⟩ =
      ⟨0, p.releaseHeight, p.vx0, p.vy0, 0, p.releaseHeight,
        [⟨0, p.releaseHeight, 0⟩]⟩ := by
    rw [simLoop, if_neg]
    unfold simGuard
    rw [h0]
    simp
  have hdist : (calculateThrowWithDrag p).distance = 0 := by
    show (simLoop p ⟨0, p.releaseHeight, p.vx0, p.vy0, 0, p.releaseHeight,
      [⟨0, p.releaseHeight, 0⟩]⟩).x = 0
    rw [hloop]
  refine ⟨hdist, ?_⟩
  rw [hdist]
  have hpos : 0 < Real.sqrt (p.vx0 * p.vx0 + p.vy0 * p.vy0) :=
    lt_of_le_of_ne (Real.sqrt_nonneg _) (Ne.symm hv)
  have : (0 : ℝ) < Real.sqrt (p.vx0 * p.vx0 + p.vy0 * p.vy0) ^ 2 :=
    pow_pos hpos 2
  unfold G
  positivity

/-- C9 amended witness: a 3-4-5 launch from the ground. -/
theorem drag_below_vacuum_range_at_zero_height_witness :
    (calculateThrowWithDrag ⟨3, 4, 0, 7.26, 110⟩).distance = 0 ∧
    (calculateThrowWithDrag ⟨3, 4, 0, 7.26, 110⟩).distance <
      Real.sqrt ((3 : ℝ) * 3 + 4 * 4) ^ 2 / G :=
  drag_below_vacuum_range_at_zero_height ⟨3, 4, 0, 7.26, 110⟩ rfl
    (by rw [show (3 : ℝ) * 3 + 4 * 4 = 25 by norm_num,
      sqrt_num_eq 25 5 (by norm_num) (by norm_num)]; norm_num)

/-! ## C10: NaN propagation at zero speed

The real-number embedding above uses Lean's `x / 0 = 0` convention, which
hides the IEEE behaviour of the source at zero speed. `JReal` models a
JavaScript number exactly where it matters for this claim: an exact real, a
NaN, or a signed infinity, with the IEEE special-value rules for the
operations the simulator performs (finite arithmetic is kept exact; rounding
is irrelevant to NaN propagation). -/

/-- A JavaScript number: finite (exact real), NaN, +Infinity or
-Infinity. -/
inductive JReal where
  | num (val : ℝ)
  | nan
  | inf
  | ninf

open JReal

/-- IEEE addition. -/
noncomputable def jadd : JReal → JReal → JReal
  | num a, num b => num (a + b)
  | nan, _ => nan
  | _, nan => nan
  | inf, ninf => nan
  | ninf, inf => nan
  | inf, _ => inf
  | _, inf => inf
  | ninf, _ => ninf
  | _, ninf => ninf

/-- IEEE negation. -/
noncomputable def jneg : JReal → JReal
  | num a => num (-a)
  | nan => nan
  | inf => ninf
  | ninf => inf

/-- IEEE subtraction `a + (-b)`. -/
noncomputable def jsub (a b : JReal) : JReal := jadd a (jneg b)

/-- IEEE multiplication (`0 · ∞ = NaN`). -/
noncomputable def jmul : JReal → JReal → JReal
  | nan, _ => nan
  | _, nan => nan
  | num a, num b => num (a * b)
  | num a, inf => if a = 0 then nan else if a > 0 then inf else ninf
  | num a, ninf => if a = 0 then nan else if a > 0 then ninf else inf
  | inf, num b => if b = 0 then nan else if b > 0 then inf else ninf
  | ninf, num b => if b = 0 then nan else if b > 0 then ninf else inf
  | inf, inf => inf
  | inf, ninf => ninf
  | ninf, inf => ninf
  | ninf, ninf => inf

/-- IEEE division (`0/0 = NaN`, `x/0 = ±∞` for `x ≠ 0` — the zero divisor
reached here is the positive zero, `∞/∞ = NaN`, finite over infinite is
zero). -/
noncomputable def jdiv : JReal → JReal → JReal
  | nan, _ => nan
  | _, nan => nan
  | num a, num b =>
    if b = 0 then (if a = 0 then nan else if a > 0 then inf else ninf)
    else num (a / b)
  | num _, inf => num 0
  | num _, ninf => num 0
  | inf, num b => if b ≥ 0 then inf else ninf
  | ninf, num b => if b ≥ 0 then ninf else inf
  | inf, _ => nan
  | ninf, _ => nan

/-- IEEE square root (`√NaN = NaN`, negative arguments give NaN). -/
noncomputable def jsqrt : JReal → JReal
  | nan => nan
  | inf => inf
  | ninf => nan
  | num a => if a < 0 then nan else num (Real.sqrt a)

/-- IEEE `<`: false whenever either side is NaN. -/
def jlt : JReal → JReal → Prop
  | nan, _ => False
  | _, nan => False
  | num a, num b => a < b
  | num _, inf => True
  | inf, _ => False
  | ninf, ninf => False
  | ninf, _ => True
  | _, ninf => False

/-- IEEE `>`. -/
def jgt (a b : JReal) : Prop := jlt b a

/-- The loop state of `calculateThrowWithDrag` over JavaScript numbers. -/
structure JState where
  x : JReal
  y : JReal
  vx : JReal
  vy : JReal
  t : JReal
  maxHeight : JReal
  trajectory : List (JReal × JReal × JReal)

/-- One iteration of the `while` body over JavaScript numbers. The
cross-sectional area is a plain computation on the finite `diameterMm`
parameter, as in `calculateArea`. -/
noncomputable def jstep (p : PhysicsParams) (s : JState) : JState :=
  let v := jsqrt (jadd (jmul s.vx s.vx) (jmul s.vy s.vy))
  let area := calculateArea p.diameterMm
  let dragForce :=
    jmul (jmul (jmul (jmul (jmul (num 0.5) (num RHO_AIR)) v) v)
      (num DRAG_COEFFICIENT)) (num area)
  let dragAccel := jdiv dragForce (num p.massKg)
  let ax := jdiv (jneg (jmul dragAccel s.vx)) v
  let ay := jsub (jneg (num G)) (jdiv (jmul dragAccel s.vy) v)
  let vx' := jadd s.vx (jmul ax (num TIME_STEP))
  let vy' := jadd s.vy (jmul ay (num TIME_STEP))
  let x' := jadd s.x (jmul vx' (num TIME_STEP))
  let y' := jadd s.y (jmul vy' (num TIME_STEP))
  let t' := jadd s.t (num TIME_STEP)
  let maxHeight' := if jgt y' s.maxHeight then y' else s.maxHeight
  let trajectory' :=
    if s.trajectory.length % 100 = 0 then s.trajectory ++ [(x', y', t')]
    else s.trajectory
  ⟨x', y', vx', vy', t', maxHeight', trajectory'⟩

/-- The `while (y > 0 && t < 10)` loop over JavaScript numbers, with an
explicit iteration budget. The numeric `t` starts at 0 and gains exactly
`0.001` per pass, so from the initial state below the guard `t < 10` fails
within 10000 passes and a budget of 10001 is never exhausted. -/
noncomputable def jsimLoop (p : PhysicsParams) : ℕ → JState → JState
  | 0, s => s
  | k + 1, s =>
    if jgt s.y (num 0) ∧ jlt s.t (num 10) then jsimLoop p k (jstep p s) else s

/-- `PhysicsResult` over JavaScript numbers. -/
structure JPhysicsResult where
  distance : JReal
  flightTime : JReal
  maxHeight : JReal
  landingVelocity : JReal
  trajectory : List (JReal × JReal × JReal)

/-- `calculateThrowWithDrag` over JavaScript numbers. -/
noncomputable def calculateThrowWithDragJS (p : PhysicsParams) :
    JPhysicsResult :=
  let s0 : JState := ⟨num 0, num p.releaseHeight, num p.vx0, num p.vy0, num 0,
    num p.releaseHeight, [(num 0, num p.releaseHeight, num 0)]⟩
  let sf := jsimLoop p 10001 s0
  { distance := sf.x
    flightTime := sf.t
    maxHeight := sf.maxHeight
    landingVelocity := jsqrt (jadd (jmul sf.vx sf.vx) (jmul sf.vy sf.vy))
    trajectory := sf.trajectory ++ [(sf.x, num 0, sf.t)] }

theorem jsimLoop_succ (p : PhysicsParams) (k : ℕ) (s : JState) :
    jsimLoop p (k + 1) s =
      if jgt s.y (num 0) ∧ jlt s.t (num 10) then jsimLoop p k (jstep p s)
      else s := rfl

/-- The first loop iteration at zero release velocity: the speed
`v = √(0² + 0²)` is 0, the drag direction `-(dragAccel · vx) / v` is the
IEEE `0/0 = NaN`, and the NaN floods position and velocity while `t`
advances one timestep and `maxHeight` survives (`NaN > maxHeight` is
false). -/
theorem jstep_zero_speed_eval :
    jstep ⟨0, 0, 1.8, 7.26, 110⟩
      ⟨num 0, num 1.8, num 0, num 0, num 0, num 1.8,
        [(num 0, num 1.8, num 0)]⟩ =
      ⟨nan, nan, nan, nan, num 0.001, num 1.8,
        [(num 0, num 1.8, num 0)]⟩ := by
  unfold jstep
  norm_num [jmul, jadd, jdiv, jneg, jsub, jsqrt, jgt, jlt, TIME_STEP]

/-- C10: at the valid input `vx0 = 0, vy0 = 0`, release height 1.8 m (any
positive height behaves the same), men's implement, the first integration
step divides the drag acceleration by the zero speed, and the returned
`distance` and `landingVelocity` are NaN: the drag-direction computation is
not total at zero speed. -/
theorem zero_speed_input_returns_nan :
    (calculateThrowWithDragJS ⟨0, 0, 1.8, 7.26, 110⟩).distance = nan ∧
    (calculateThrowWithDragJS ⟨0, 0, 1.8, 7.26, 110⟩).landingVelocity = nan := by
  have hguard : jgt (num 1.8) (num 0) ∧ jlt (num 0) (num 10) := by
    constructor
    · show jlt (num 0) (num 1.8)
      show (0 : ℝ) < 1.8
      norm_num
    · show (0 : ℝ) < 10
      norm_num
  have h1 : jsimLoop ⟨0, 0, 1.8, 7.26, 110⟩ 10001
      ⟨num 0, num 1.8, num 0, num 0, num 0, num 1.8,
        [(num 0, num 1.8, num 0)]⟩ =
      ⟨nan, nan, nan, nan, num 0.001, num 1.8,
        [(num 0, num 1.8, num 0)]⟩ := by
    rw [show (10001 : ℕ) = 10000 + 1 from rfl, jsimLoop_succ, if_pos hguard,
      jstep_zero_speed_eval]
    rw [show (10000 : ℕ) = 9999 + 1 from rfl, jsimLoop_succ, if_neg]
    intro hcl
    exact hcl.1
  constructor
  · show (jsimLoop ⟨0, 0, 1.8, 7.26, 110⟩ 10001
      ⟨num 0, num 1.8, num 0, num 0, num 0, num 1.8,
        [(num 0, num 1.8, num 0)]⟩).x = nan
    rw [h1]
  · show jsqrt (jadd (jmul (jsimLoop ⟨0, 0, 1.8, 7.26, 110⟩ 10001
        ⟨num 0, num 1.8, num 0, num 0, num 0, num 1.8,
          [(num 0, num 1.8, num 0)]⟩).vx _) _) = nan
    rw [h1]
    norm_num [jmul, jadd, jsqrt]

end Moukari
